import Mathlib

/-!
Verification of the Live-Market-Prize streaming/trading pipeline.

This file shallowly embeds the core of the repository in Lean 4 and settles
the frozen claims against it.  Prices are modelled as rationals (the Python
code uses IEEE floats; every concrete input used below is far from any
comparison boundary, so the float/rational distinction is immaterial).

Embedded source units:
* `market/consumers.py`   — indicator engine (`calculate_rsi`, `calculate_macd`,
  `calculate_adx`), subscription bookkeeping (`handle_subscribe`,
  `handle_unsubscribe`), strategy rules (`check_adx_strategy`,
  `check_macd_strategy`) and the signal forwarding inside
  `handle_get_historical`, plus its minimal `on_data` tick handler.
* `market/Datafeed/connection.py` — the full `on_data` tick handler (LTP
  dispatch, direction-guessed MTM, target/stoploss auto-exit) and the
  `on_close`/`on_open` reconnect handlers.
* `market/connection.py`  — the simpler `on_data` variant (assume-LONG MTM).

Indicator parameters are fixed at their Python default values (RSI period 14,
MACD 12/26/9, ADX period 14); the repository never calls them with any other
value.
-/

/-! ## Indicator engine (market/consumers.py)

`calculate_rsi` mirrors the Python function line by line:
`deltas = np.diff(closes)`, `seed = deltas[:period+1]` (note: `period + 1 = 15`
deltas, not `period`), seed averages over `period = 14`, then the loop
`for i in range(period, len(closes)): delta = deltas[i-1]; ...` which re-reads
`deltas[13]` and `deltas[14]` already consumed by the seed.  Only `rsi[-1]`,
written in the final loop iteration, is returned, so the embedding keeps the
running `(up, down)` state and applies the RSI formula once at the end. -/

/-- Successive differences of a price list, `np.diff`. -/
def deltas (xs : List ℚ) : List ℚ :=
  List.zipWith (fun a b => b - a) xs xs.tail

/-- One smoothing step of the Python loop body:
`up = (up*(period-1) + upval)/period`, `down = (down*(period-1) + downval)/period`
with `upval = delta, downval = 0` when `delta > 0` and `upval = 0,
downval = -delta` otherwise (period = 14). -/
def rsiStep (ud : ℚ × ℚ) (delta : ℚ) : ℚ × ℚ :=
  let upval := if 0 < delta then delta else 0
  let downval := if 0 < delta then 0 else -delta
  ((ud.1 * 13 + upval) / 14, (ud.2 * 13 + downval) / 14)

/-- Seed state: `seed = deltas[:15]`, `up = seed[seed >= 0].sum() / 14`,
`down = -seed[seed < 0].sum() / 14`. -/
def rsiSeed (closes : List ℚ) : ℚ × ℚ :=
  let seed := (deltas closes).take 15
  (((seed.filter (fun d => decide (0 ≤ d))).sum) / 14,
   (-((seed.filter (fun d => decide (d < 0))).sum)) / 14)

/-- The `(up, down)` state after the Python loop
`for i in range(period, len(closes)): delta = deltas[i - 1]; ...`. -/
def rsiState (closes : List ℚ) : ℚ × ℚ :=
  (List.range' 14 (closes.length - 14)).foldl
    (fun s i => rsiStep s ((deltas closes).getD (i - 1) 0)) (rsiSeed closes)

/-- The RSI formula applied to an `(up, down)` state:
`rs = up/down if down != 0 else np.inf; rsi = 100 - 100/(1 + rs)`
(with `rs = inf` the Python expression evaluates to `100`). -/
def rsiOf (ud : ℚ × ℚ) : ℚ :=
  if ud.2 = 0 then 100 else 100 - 100 / (1 + ud.1 / ud.2)

/-- Embedding of `MarketConsumer.calculate_rsi` (market/consumers.py, period 14).
Returns `none` when `len(closes) < period + 1`, otherwise `rsi[-1]`, the value
written by the final loop iteration. -/
def calculate_rsi (closes : List ℚ) : Option ℚ :=
  if closes.length < 15 then none
  else some (rsiOf (rsiState closes))

/-! MACD: pandas `ewm(span=s, adjust=False).mean()` is the recurrence
`y0 = x0`, `y(i) = (1 - α) * y(i-1) + α * x(i)` with `α = 2 / (s + 1)`. -/

/-- One EMA recurrence step with span `span`. -/
def emaNext (span : ℕ) (prev x : ℚ) : ℚ :=
  let α : ℚ := 2 / ((span : ℚ) + 1)
  (1 - α) * prev + α * x

/-- The full EMA series of a list (same length as the input). -/
def emaList (span : ℕ) : List ℚ → List ℚ
  | [] => []
  | x :: rest => List.scanl (emaNext span) x rest

/-- Embedding of `MarketConsumer.calculate_macd` (market/consumers.py,
fast 12 / slow 26 / signal 9).  Returns the last entries of the MACD line,
signal line and histogram series, or three `none`s when `len(closes) < 26`. -/
def calculate_macd (closes : List ℚ) : Option ℚ × Option ℚ × Option ℚ :=
  if closes.length < 26 then (none, none, none)
  else
    let emaFast := emaList 12 closes
    let emaSlow := emaList 26 closes
    let macdLine := List.zipWith (fun a b => a - b) emaFast emaSlow
    let signalLine := emaList 9 macdLine
    let histogram := List.zipWith (fun a b => a - b) macdLine signalLine
    (macdLine.getLast?, signalLine.getLast?, histogram.getLast?)

/-! ADX: the pandas pipeline of `calculate_adx` translated positionally.
Row 0 of `tr` is `high - low` (the `shift()` terms are NaN and
`max(axis=1)` skips NaN); row 0 of `dm_plus`/`dm_minus` is `0` (NaN
comparisons are False in `np.where`).  `rolling(14).mean()` values are only
read at indices where the window is fully defined, which the `len >= 28`
guard guarantees; those reads are expressed with `smaAt`.  Division by zero
(flat prices) yields NaN/inf in pandas and `0` in ℚ; no claim depends on that
corner. -/

/-- Simple moving average of the window of width `p` ending at index `i`. -/
def smaAt (p : ℕ) (xs : List ℚ) (i : ℕ) : ℚ :=
  (((xs.drop (i + 1 - p)).take p).sum) / p

/-- True-range series: `tr[0] = high - low`, and for `i ≥ 1`
`tr[i] = max(high - low, |high - prevClose|, |low - prevClose|)`. -/
def trList (highs lows closes : List ℚ) : List ℚ :=
  match highs, lows with
  | h0 :: hrest, l0 :: lrest =>
      (h0 - l0) ::
        List.zipWith (fun hl c => max (hl.1 - hl.2) (max |hl.1 - c| |hl.2 - c|))
          (hrest.zip lrest) closes
  | _, _ => []

/-- Plus directional movement series, `np.where((h - h.shift()) > (l.shift() - l), maximum(h - h.shift(), 0), 0)`. -/
def dmPlusList (highs lows : List ℚ) : List ℚ :=
  0 ::
    List.zipWith (fun hp lp =>
        let up := hp.2 - hp.1
        let down := lp.1 - lp.2
        if down < up then max up 0 else 0)
      (highs.zip highs.tail) (lows.zip lows.tail)

/-- Minus directional movement series, symmetric to `dmPlusList`. -/
def dmMinusList (highs lows : List ℚ) : List ℚ :=
  0 ::
    List.zipWith (fun hp lp =>
        let up := hp.2 - hp.1
        let down := lp.1 - lp.2
        if up < down then max down 0 else 0)
      (highs.zip highs.tail) (lows.zip lows.tail)

/-- Embedding of `MarketConsumer.calculate_adx` (market/consumers.py,
period 14).  Returns `(adx.iloc[-1], di_plus.iloc[-1], di_minus.iloc[-1])`,
or three `none`s when `len(closes) < period * 2 = 28`. -/
def calculate_adx (highs lows closes : List ℚ) : Option ℚ × Option ℚ × Option ℚ :=
  if closes.length < 28 then (none, none, none)
  else
    let n := closes.length
    let tr := trList highs lows closes
    let dmp := dmPlusList highs lows
    let dmm := dmMinusList highs lows
    let diPlusAt := fun i => 100 * smaAt 14 dmp i / smaAt 14 tr i
    let diMinusAt := fun i => 100 * smaAt 14 dmm i / smaAt 14 tr i
    let dxAt := fun i => 100 * |diPlusAt i - diMinusAt i| / (diPlusAt i + diMinusAt i)
    let adxLast := (((List.range 14).map (fun k => dxAt (n - 14 + k))).sum) / 14
    (some adxLast, some (diPlusAt (n - 1)), some (diMinusAt (n - 1)))

example : calculate_rsi [1, 2, 3] = none := by with_unfolding_all rfl
example : calculate_rsi
    [1, 2, 3, 4, 5, 6, 7, 8, 9, 10, 11, 12, 13, 14, 13] = some (4225 / 49) := by
  with_unfolding_all rfl

/-! ## Strategy rules and signal forwarding (market/consumers.py)

`check_adx_strategy` / `check_macd_strategy` are embedded with the
`current_side` string (read in the source from
`self.positions.get(symbol_token, {}).get('side', 'NONE')`) as an explicit
argument.  The human-readable `reason` strings of the Python signal dicts are
informational f-strings and are not modelled; a signal is its `action`
together with the `confidence` field the ADX rule attaches. -/

/-- The side recorded for an instrument in `self.positions` (default `NONE`). -/
inductive TradeSide where
  | NONE
  | LONG
  | SHORT
deriving DecidableEq, Repr

/-- Signal action, `signal["action"]`. -/
inductive SigAction where
  | BUY
  | SELL
  | EXIT
deriving DecidableEq, Repr

/-- Confidence attached by the ADX rule. -/
inductive Confidence where
  | high
  | medium
deriving DecidableEq, Repr

/-- A strategy signal (reason strings omitted, see section comment). -/
structure Signal where
  action : SigAction
  confidence : Option Confidence
deriving DecidableEq, Repr

/-- Embedding of `MarketConsumer.check_adx_strategy` (market/consumers.py).
Returns `none` when any of adx, di_plus, di_minus is `None`; otherwise the
side-dependent rule: no position → BUY if `di_plus > 20` else SELL if
`di_minus > 20` (confidence "high" iff the firing DI exceeds the other);
LONG → EXIT if `di_plus < 18`; SHORT → EXIT if `di_minus < 18`. -/
def check_adx_strategy (adx di_plus di_minus : Option ℚ)
    (current_side : TradeSide) : Option Signal :=
  match adx, di_plus, di_minus with
  | some _, some dp, some dm =>
    match current_side with
    | .NONE =>
        if 20 < dp then some ⟨.BUY, some (if dm < dp then .high else .medium)⟩
        else if 20 < dm then some ⟨.SELL, some (if dp < dm then .high else .medium)⟩
        else none
    | .LONG => if dp < 18 then some ⟨.EXIT, none⟩ else none
    | .SHORT => if dm < 18 then some ⟨.EXIT, none⟩ else none
  | _, _, _ => none

/-- Embedding of `MarketConsumer.check_macd_strategy` (market/consumers.py).
No position → BUY if `macd_line > 0` else SELL if `macd_line < 0`;
LONG → EXIT if `macd_line < 0`; SHORT → EXIT if `macd_line > 0`. -/
def check_macd_strategy (line : Option ℚ) (current_side : TradeSide) : Option Signal :=
  match line with
  | none => none
  | some ml =>
    match current_side with
    | .NONE =>
        if 0 < ml then some ⟨.BUY, none⟩
        else if ml < 0 then some ⟨.SELL, none⟩
        else none
    | .LONG => if ml < 0 then some ⟨.EXIT, none⟩ else none
    | .SHORT => if 0 < ml then some ⟨.EXIT, none⟩ else none

/-- The sequence of signals `handle_get_historical` passes to
`handle_strategy_signal` (market/consumers.py lines 504–509):

`if adx_signal or macd_signal: self.handle_strategy_signal(symbol_token, adx_signal or macd_signal)`

Python's `or` yields the first non-`None` operand, and exactly one call is
made, so the forwarded sequence is a singleton (or empty). -/
def forwardedSignals (adxSig macdSig : Option Signal) : List Signal :=
  match adxSig, macdSig with
  | some a, _ => [a]
  | none, some m => [m]
  | none, none => []

/-! ## Subscription bookkeeping (market/consumers.py)

`self.subscribed_tokens` is a dict `exchangeType → set(tokens)`; it is
modelled as a total function `ℕ → Finset String` where a missing key is the
empty set.  Under that representation the source's
`exchange_type not in self.subscribed_tokens or token not in ...[exchange_type]`
is exactly non-membership, and the `del` of an emptied key in
`handle_unsubscribe` is the identity.  `self.token_symbol_map` is bookkeeping
for display lookups and is not modelled (no claim mentions it). -/

/-- One record of the instrument master list (the fields the handlers read). -/
structure Instr where
  symbol : String
  exch_seg : String
  token : String
deriving DecidableEq, Repr

/-- The `EXCHANGE_MAP` dict of market/consumers.py. -/
def EXCHANGE_MAP : List (String × ℕ) :=
  [("NSE", 1), ("NFO", 2), ("BSE", 3), ("BFO", 4),
   ("MCX", 5), ("NCO", 5), ("NCDEX", 7), ("CDS", 13)]

/-- Lookup with default, `EXCHANGE_MAP.get(exchange, 1)`. -/
def exchangeMap (exchange : String) : ℕ :=
  (EXCHANGE_MAP.lookup exchange).getD 1

/-- The subscription state `self.subscribed_tokens`. -/
def SubState : Type := ℕ → Finset String

/-- The empty subscription state. -/
def emptySubs : SubState := fun _ => ∅

/-- First instrument record matching `instr["symbol"] == ts and
instr["exch_seg"] == exchange`, mapped to its token (the `for ... break`
inner loop of both handlers). -/
def resolveToken (il : List Instr) (ts exchange : String) : Option String :=
  (il.find? (fun i => i.symbol == ts && i.exch_seg == exchange)).map (fun i => i.token)

/-- Tokens resolved from a subscribe/unsubscribe request, in request order;
symbols with no matching instrument are skipped. -/
def resolvedTokens (il : List Instr) (symbols : List String) (exchange : String) :
    List String :=
  symbols.filterMap (fun ts => resolveToken il ts exchange)

/-- The `tokens` list built by `handle_subscribe`: resolved tokens not already
subscribed on the request's exchange type (membership tested against the
pre-call state, so a token repeated inside one request appears twice). -/
def newTokens (il : List Instr) (symbols : List String) (exchange : String)
    (st : SubState) : List String :=
  (resolvedTokens il symbols exchange).filter
    (fun t => decide (t ∉ st (exchangeMap exchange)))

/-- Embedding of `MarketConsumer.handle_subscribe` (market/consumers.py).
Returns the new state together with the token list passed to
`self.sws.subscribe` (empty when no transport call is made).  An unloaded
instrument list (`if not self.instrument_list`) aborts with an error message
and no state change, as does an empty `tokens` list. -/
def handle_subscribe (il : List Instr) (symbols : List String) (exchange : String)
    (st : SubState) : SubState × List String :=
  if il.isEmpty then (st, [])
  else
    let seg := exchangeMap exchange
    let toks := newTokens il symbols exchange st
    if toks.isEmpty then (st, [])
    else (fun s => if s = seg then st s ∪ toks.toFinset else st s, toks)

/-- The `tokens` list built by `handle_unsubscribe`: resolved tokens that are
currently subscribed on the request's exchange type. -/
def removableTokens (il : List Instr) (symbols : List String) (exchange : String)
    (st : SubState) : List String :=
  (resolvedTokens il symbols exchange).filter
    (fun t => decide (t ∈ st (exchangeMap exchange)))

/-- Embedding of `MarketConsumer.handle_unsubscribe` (market/consumers.py).
Removes the resolved, currently subscribed tokens from the segment's set
(`difference_update`); the source then deletes the key if the set became
empty, which is invisible in the function representation. -/
def handle_unsubscribe (il : List Instr) (symbols : List String) (exchange : String)
    (st : SubState) : SubState :=
  if il.isEmpty then st
  else
    let seg := exchangeMap exchange
    let toks := removableTokens il symbols exchange st
    if toks.isEmpty then st
    else fun s => if s = seg then st s \ toks.toFinset else st s

/-- An inbound control request touching the subscription state. -/
inductive Req where
  | sub (symbols : List String) (exchange : String)
  | unsub (symbols : List String) (exchange : String)

/-- Apply one request to the subscription state. -/
def applyReq (il : List Instr) (st : SubState) : Req → SubState
  | .sub symbols exchange => (handle_subscribe il symbols exchange st).1
  | .unsub symbols exchange => handle_unsubscribe il symbols exchange st

/-- The subscription state reached from the empty state by a request sequence. -/
def runReqs (il : List Instr) (reqs : List Req) : SubState :=
  reqs.foldl (applyReq il) emptySubs

/-! ## Tick handlers

The three `on_data` callbacks (market/consumers.py, market/connection.py,
market/Datafeed/connection.py) are embedded as pure functions from the
inbound message, the relevant consumer state and the open position looked up
in the store (`Position.objects.filter(token=..., status="OPEN").first()`)
to a list of observable effects plus the written-back position.  The raw
`last_traded_price` is an integer in minor units (price · 100) and the field
may be missing; `if not ltp:` is True exactly for a missing field and for the
value `0`. -/

/-- Position side as recorded by the lifecycle code.  The Django model
`market.models.Position` itself is not under src/; the field is modelled from
the spec: Position carries `side ∈ {LONG, SHORT}` (§3 data model).  The
embedded tick handlers below never read it, which is the point of claim C1. -/
inductive Side where
  | LONG
  | SHORT
deriving DecidableEq, Repr

/-- The fields of an open position that the tick handlers read or write. -/
structure Position where
  side : Side
  entry_price : Option ℚ
  quantity : ℚ
  mtm : ℚ
  target : Option ℚ
  stoploss : Option ℚ
deriving DecidableEq, Repr

/-- An inbound websocket tick message (the two fields the handlers read). -/
structure TickMessage where
  token : Option String
  last_traded_price : Option ℤ
deriving DecidableEq, Repr

/-- Observable effects of a tick handler, in emission order. -/
inductive TickEffect where
  | sendLtp (symbol : String) (token : Option String) (ltp : ℚ)
  | saveMtm (mtm : ℚ)
  | sendMtmUpdate (ltp mtm : ℚ)
  | closePos (exitPrice : ℚ) (reason : String)
  | sendAutoExit (exitPrice : ℚ) (reason : String)
deriving DecidableEq, Repr

/-- `self.token_symbol_map.get(token, "UNKNOWN")` (with a missing `token`
field also falling through to `"UNKNOWN"`). -/
def symbolFor (tsm : List (String × String)) (token : Option String) : String :=
  match token with
  | none => "UNKNOWN"
  | some t => (tsm.lookup t).getD "UNKNOWN"

/-- Round half up at two decimals, Python's `round(x, 2)` (Python rounds
half to even; the two agree except exactly half way between two cents, which
no input below is). -/
def round2 (x : ℚ) : ℚ := ((round (x * 100) : ℤ) : ℚ) / 100

/-- The direction-guessed MTM of market/Datafeed/connection.py lines 115–120:
`mtm = (ltp - entry) * qty` when `ltp >= entry` else `(entry - ltp) * qty`.
The stored side of the position is not consulted. -/
def mtmGuess (ltp entry qty : ℚ) : ℚ :=
  if entry ≤ ltp then (ltp - entry) * qty else (entry - ltp) * qty

/-- The assume-LONG MTM of market/connection.py line 98:
`mtm = (ltp - open_position.entry_price) * 1`. -/
def mtmAssumeLong (ltp entry : ℚ) : ℚ := (ltp - entry) * 1

/-- The target/stoploss decision of market/Datafeed/connection.py lines
147–166.  `exit_reason` starts as `None`; the target branch may set it to
"Target reached", then the stoploss branch runs unconditionally afterwards
and may overwrite it with "Stoploss hit".  The result is the final
`exit_reason` when `should_exit` ends up True, `none` otherwise.  The float
literals `0.99` and `1.01` are taken as the rationals 99/100 and 101/100. -/
def exitDecision (entry ltp : ℚ) (target stoploss : Option ℚ) : Option String :=
  let targetReason : Option String :=
    match target with
    | some tg =>
        if (tg * (99 / 100) ≤ ltp ∧ entry ≤ ltp) ∨ (ltp ≤ tg * (101 / 100) ∧ ltp ≤ entry)
        then some "Target reached" else none
    | none => none
  let stopReason : Option String :=
    match stoploss with
    | some sl =>
        if (ltp ≤ sl ∧ ltp ≤ entry) ∨ (sl ≤ ltp ∧ entry ≤ ltp)
        then some "Stoploss hit" else none
    | none => none
  match stopReason with
  | some r => some r
  | none => targetReason

/-- Embedding of the `on_data` callback of market/Datafeed/connection.py.
Arguments: the token→symbol map, the open position found in the store for the
message's token (`None` when there is none, or when its `entry_price` is
`None` the body below skips the position block), and the message.  Returns
the emitted effects in order and the position as left in the store.
`close_position_db` lives outside src/ and is recorded as the `closePos`
effect rather than interpreted. -/
def on_data_feed (tsm : List (String × String)) (openPos : Option Position)
    (msg : TickMessage) : List TickEffect × Option Position :=
  match msg.last_traded_price with
  | none => ([], openPos)
  | some raw =>
    if raw = 0 then ([], openPos)
    else
      let ltp : ℚ := (raw : ℚ) / 100
      let ltpEff := TickEffect.sendLtp (symbolFor tsm msg.token) msg.token ltp
      match openPos with
      | none => ([ltpEff], none)
      | some p =>
        match p.entry_price with
        | none => ([ltpEff], some p)
        | some entry =>
          let mtm := mtmGuess ltp entry p.quantity
          let significant := decide ((1 : ℚ) / 100 < |mtm - p.mtm|)
          let mtmEffs :=
            if significant then [TickEffect.saveMtm (round2 mtm),
                                 TickEffect.sendMtmUpdate ltp (round2 mtm)]
            else []
          let p1 := if significant then { p with mtm := round2 mtm } else p
          match exitDecision entry ltp p.target p.stoploss with
          | some reason =>
              (ltpEff :: mtmEffs ++
                 [TickEffect.closePos ltp reason, TickEffect.sendAutoExit ltp reason],
               some p1)
          | none => (ltpEff :: mtmEffs, some p1)

/-- Embedding of the `on_data` callback of market/consumers.py lines 116–131:
send the decoded LTP and nothing else; it never touches position state. -/
def on_data_consumer (tsm : List (String × String)) (msg : TickMessage) :
    List TickEffect :=
  match msg.last_traded_price with
  | none => []
  | some raw =>
    if raw = 0 then []
    else
      let price : ℚ := (raw : ℚ) / 100
      [TickEffect.sendLtp (symbolFor tsm msg.token) msg.token price]

/-- Embedding of the `on_data` callback of market/connection.py lines 72–114:
send the LTP, then update the open position's MTM with the assume-LONG
formula when the change exceeds `0.05`. -/
def on_data_conn (tsm : List (String × String)) (openPos : Option Position)
    (msg : TickMessage) : List TickEffect × Option Position :=
  match msg.last_traded_price with
  | none => ([], openPos)
  | some raw =>
    if raw = 0 then ([], openPos)
    else
      let ltp : ℚ := (raw : ℚ) / 100
      let ltpEff := TickEffect.sendLtp (symbolFor tsm msg.token) msg.token ltp
      match openPos with
      | none => ([ltpEff], none)
      | some p =>
        match p.entry_price with
        | none => ([ltpEff], some p)
        | some entry =>
          let mtm := mtmAssumeLong ltp entry
          if (5 : ℚ) / 100 < |mtm - p.mtm| then
            ([ltpEff, TickEffect.saveMtm (round2 mtm),
              TickEffect.sendMtmUpdate ltp (round2 mtm)],
             some { p with mtm := round2 mtm })
          else ([ltpEff], some p)

/-! ## Reconnect handling (market/Datafeed/connection.py)

`on_close` sends a status message, sleeps five seconds and calls
`self.sws.connect()` (the exception branch of the reconnect attempt is not
modelled); `on_open` logs and sends "Datafeed Connected" and does nothing
else.  Neither handler reads the subscription state, so the cycle is a
constant function of the previously active subscriptions. -/

/-- Observable feed-session effects. -/
inductive FeedEffect where
  | send (msg : String)
  | sleep (seconds : ℕ)
  | connectCall
  | subscribeCall (seg : ℕ) (tokens : List String)
deriving DecidableEq, Repr

/-- Effects of the `on_close` callback, in order. -/
def on_close_feed : List FeedEffect :=
  [FeedEffect.send "Datafeed Disconnected - Reconnecting...",
   FeedEffect.sleep 5,
   FeedEffect.connectCall]

/-- Effects of the `on_open` callback. -/
def on_open_feed : List FeedEffect :=
  [FeedEffect.send "Datafeed Connected"]

/-- The full disconnect→reconnect cycle as observed from a state whose active
subscriptions are `active` (a list of segment/token-list pairs): the `on_close`
effects followed by the `on_open` effects of the reconnected transport.  The
source consults no subscription state here, so `active` is unused. -/
def reconnectCycle (_active : List (ℕ × List String)) : List FeedEffect :=
  on_close_feed ++ on_open_feed

/-- Whether a feed effect is a transport subscribe call. -/
def isSubscribeCall : FeedEffect → Bool
  | FeedEffect.subscribeCall _ _ => true
  | _ => false

/-! ## Claim-side reference definitions

The following definitions transcribe claim/spec wording (not the source); each
is compared against the corresponding source embedding above. -/

/-- Side-aware mark-to-market as the spec and claim C1 word it:
`mtm = (ltp - entry) * qty` if `side = LONG` else `(entry - ltp) * qty`. -/
def mtmSpec (side : Side) (ltp entry qty : ℚ) : ℚ :=
  match side with
  | .LONG => (ltp - entry) * qty
  | .SHORT => (entry - ltp) * qty

/-- RSI as claim C4 words it: seed average gain/loss from the first 14 deltas
(positive/negative parts divided by 14), smooth with
`avg = (avg*13 + newValue)/14` for each subsequent delta (the deltas after the
first 14), return the RSI at the latest sample. -/
def rsi_claimed (closes : List ℚ) : Option ℚ :=
  if closes.length < 15 then none
  else
    let ds := deltas closes
    let seed := ds.take 14
    let up0 := ((seed.filter (fun d => decide (0 < d))).sum) / 14
    let down0 := (-((seed.filter (fun d => decide (d < 0))).sum)) / 14
    some (rsiOf ((ds.drop 14).foldl rsiStep (up0, down0)))

/-- RSI as `calculate_rsi` actually computes it — claim C4 amended by exactly
what the code does differently: the seed averages the first 15 deltas (all
available deltas when there are exactly 15 closes), and the smoothing loop
starts at the 14th delta, so the 14th and 15th deltas are consumed both by
the seed and by the loop. -/
def rsi_amended (closes : List ℚ) : Option ℚ :=
  if closes.length < 15 then none
  else
    let ds := deltas closes
    let seed := ds.take 15
    let up0 := ((seed.filter (fun d => decide (0 ≤ d))).sum) / 14
    let down0 := (-((seed.filter (fun d => decide (d < 0))).sum)) / 14
    some (rsiOf ((ds.drop 13).foldl rsiStep (up0, down0)))

/-! ## Claims -/

/-- A SHORT position losing money: entry 100, quantity 1, previous mtm 0. -/
def posShortC1 : Position :=
  { side := Side.SHORT, entry_price := some 100, quantity := 1, mtm := 0,
    target := none, stoploss := none }

/-- A tick at raw price 11000, i.e. LTP 110. -/
def msgC1 : TickMessage := { token := some "11536", last_traded_price := some 11000 }

/-- C1 counterexample: on a tick at LTP 110 applied to an OPEN SHORT position
with entry 100 and quantity 1, the Datafeed `on_data` stores mtm = +10
(`ltp ≥ entry`, so the handler guesses LONG), while the claim's side-aware
formula demands (entry − ltp)·qty = −10. -/
theorem C1_counterexample :
    (on_data_feed [] (some posShortC1) msgC1).2 = some { posShortC1 with mtm := 10 } ∧
    mtmSpec posShortC1.side 110 100 posShortC1.quantity = -10 ∧
    (10 : ℚ) ≠ -10 := by
  refine ⟨by with_unfolding_all rfl, by with_unfolding_all rfl, by norm_num⟩

/-- C1 (amended): the newly computed mark-to-market never consults the
position's side.  The Datafeed handler computes `|ltp − entry| · qty`
(direction guessed from the sign of `ltp − entry`), and the
market/connection.py handler always computes `(ltp − entry) · 1`. -/
theorem C1_mtm_ignores_side (ltp entry qty : ℚ) :
    mtmGuess ltp entry qty = |ltp - entry| * qty ∧
    mtmAssumeLong ltp entry = ltp - entry := by
  constructor
  · unfold mtmGuess
    by_cases h : entry ≤ ltp
    · rw [if_pos h, abs_of_nonneg (by linarith)]
    · rw [if_neg h, abs_of_neg (by linarith)]
      ring
  · unfold mtmAssumeLong
    ring

/-- The open LONG position of spec Example 3: entry 100, target 101.5
(= 203/2), stoploss 99. -/
def posC2 : Position :=
  { side := Side.LONG, entry_price := some 100, quantity := 1, mtm := 0,
    target := some (203 / 2), stoploss := some 99 }

/-- A tick at raw price 10160, i.e. LTP 101.6 (= 508/5). -/
def msgC2 : TickMessage := { token := some "3045", last_traded_price := some 10160 }

/-- C2: at entry 100, target 101.5, stoploss 99, LTP 101.6 the target branch
fires (101.6 ≥ 101.5·0.99 and 101.6 ≥ 100) and sets "Target reached", but the
stoploss branch then also fires (101.6 ≥ 99 and 101.6 ≥ 100) and overwrites
the reason, so the auto-exit executes with exit reason "Stoploss hit" —
against spec Example 3 and the evident intent (the price never came near the
stoploss of 99). -/
theorem C2_exit_reason_overwritten :
    exitDecision 100 (508 / 5) (some (203 / 2)) (some 99) = some "Stoploss hit" ∧
    (on_data_feed [] (some posC2) msgC2).1 =
      [TickEffect.sendLtp "UNKNOWN" (some "3045") (508 / 5),
       TickEffect.saveMtm (8 / 5),
       TickEffect.sendMtmUpdate (508 / 5) (8 / 5),
       TickEffect.closePos (508 / 5) "Stoploss hit",
       TickEffect.sendAutoExit (508 / 5) "Stoploss hit"] ∧
    some "Stoploss hit" ≠ some "Target reached" := by
  refine ⟨by with_unfolding_all rfl, by with_unfolding_all rfl, by decide⟩

/-- C3 counterexample: with one token active before the disconnect, the
close→reconnect→open cycle consists exactly of a status message, the 5-second
sleep, the `connect()` call and the connected status; it contains no
transport subscribe call, so the active token is not re-subscribed. -/
theorem C3_counterexample :
    reconnectCycle [(1, ["26009"])] =
      [FeedEffect.send "Datafeed Disconnected - Reconnecting...",
       FeedEffect.sleep 5, FeedEffect.connectCall,
       FeedEffect.send "Datafeed Connected"] ∧
    (reconnectCycle [(1, ["26009"])]).countP (fun e => isSubscribeCall e) = 0 := by
  exact ⟨rfl, by decide⟩

/-- C3 (amended): after the transport close the session sends a disconnect
status, waits 5 seconds and calls `connect()` again, and the subsequent open
event emits only a connected status; no subscription is re-issued for any
previously active token, whatever the active set was. -/
theorem C3_reconnect_without_resubscribe (active : List (ℕ × List String)) :
    reconnectCycle active =
      [FeedEffect.send "Datafeed Disconnected - Reconnecting...",
       FeedEffect.sleep 5, FeedEffect.connectCall,
       FeedEffect.send "Datafeed Connected"] ∧
    (reconnectCycle active).countP (fun e => isSubscribeCall e) = 0 := by
  exact ⟨rfl, rfl⟩

/-- C5 counterexample: on a snapshot where both rules fire (no position,
`+DI = 25 > 20` with `+DI > -DI`, and `macd_line = 5 > 0`), only the ADX
signal reaches `handle_strategy_signal`; the forwarded sequence has one
element, not two. -/
theorem C5_counterexample :
    check_adx_strategy (some 30) (some 25) (some 10) TradeSide.NONE =
      some { action := SigAction.BUY, confidence := some Confidence.high } ∧
    check_macd_strategy (some 5) TradeSide.NONE =
      some { action := SigAction.BUY, confidence := none } ∧
    forwardedSignals
        (check_adx_strategy (some 30) (some 25) (some 10) TradeSide.NONE)
        (check_macd_strategy (some 5) TradeSide.NONE) =
      [{ action := SigAction.BUY, confidence := some Confidence.high }] ∧
    ([{ action := SigAction.BUY, confidence := some Confidence.high }] : List Signal) ≠
      [{ action := SigAction.BUY, confidence := some Confidence.high },
       { action := SigAction.BUY, confidence := none }] := by
  refine ⟨by with_unfolding_all rfl, by with_unfolding_all rfl,
          by with_unfolding_all rfl, by decide⟩

/-- C5 (amended): `handle_get_historical` forwards at most one signal per
evaluation cycle — the ADX rule's signal when it produced one (the MACD
signal is dropped in that case, by Python's `or`), else the MACD rule's. -/
theorem C5_only_first_signal_forwarded (a m : Signal) :
    forwardedSignals (some a) (some m) = [a] ∧
    forwardedSignals (some a) none = [a] ∧
    forwardedSignals none (some m) = [m] ∧
    forwardedSignals none none = ([] : List Signal) :=
  ⟨rfl, rfl, rfl, rfl⟩

/-- C7: each indicator returns its "unavailable" value on inputs shorter than
its minimum window: `calculate_rsi` needs 15 closes, `calculate_macd` 26,
`calculate_adx` 28. -/
theorem C7_short_inputs_unavailable (closes highs lows : List ℚ) :
    (closes.length < 15 → calculate_rsi closes = none) ∧
    (closes.length < 26 → calculate_macd closes = (none, none, none)) ∧
    (closes.length < 28 → calculate_adx highs lows closes = (none, none, none)) := by
  refine ⟨fun h => ?_, fun h => ?_, fun h => ?_⟩
  · simp [calculate_rsi, h]
  · simp [calculate_macd, h]
  · simp [calculate_adx, h]

/-- C7 witness: the guards fire on a one-bar input. -/
theorem C7_short_inputs_unavailable_witness :
    calculate_rsi [1] = none ∧
    calculate_macd [1] = (none, none, none) ∧
    calculate_adx [2] [0] [1] = (none, none, none) :=
  ⟨(C7_short_inputs_unavailable [1] [2] [0]).1 (by decide),
   (C7_short_inputs_unavailable [1] [2] [0]).2.1 (by decide),
   (C7_short_inputs_unavailable [1] [2] [0]).2.2 (by decide)⟩

/-- C10: a tick whose `last_traded_price` is absent or 0 (Python falsy) makes
every `on_data` handler return immediately — no message is sent, and the
handlers that touch positions leave them untouched for every possible stored
position, so a genuine LTP of exactly 0 is silently dropped. -/
theorem C10_falsy_ltp_dropped (tsm : List (String × String)) (pos : Option Position)
    (msg : TickMessage)
    (h : msg.last_traded_price = none ∨ msg.last_traded_price = some 0) :
    on_data_feed tsm pos msg = ([], pos) ∧
    on_data_conn tsm pos msg = ([], pos) ∧
    on_data_consumer tsm msg = [] := by
  rcases h with h | h <;>
    refine ⟨?_, ?_, ?_⟩ <;>
      simp [on_data_feed, on_data_conn, on_data_consumer, h]

/-- C10 witness: a tick carrying a literal zero price is dropped whole. -/
theorem C10_falsy_ltp_dropped_witness :
    on_data_feed [] (some posC2) { token := some "3045", last_traded_price := some 0 } =
      ([], some posC2) ∧
    on_data_conn [] (some posC2) { token := some "3045", last_traded_price := some 0 } =
      ([], some posC2) ∧
    on_data_consumer [] { token := some "3045", last_traded_price := some 0 } = [] :=
  C10_falsy_ltp_dropped [] (some posC2)
    { token := some "3045", last_traded_price := some 0 } (Or.inr rfl)

/-- The delta list of `n` closes has `n - 1` entries. -/
theorem deltas_length (xs : List ℚ) : (deltas xs).length = xs.length - 1 := by
  unfold deltas
  rw [List.length_zipWith, List.length_tail]
  exact Nat.min_eq_right (Nat.sub_le _ _)

/-- The indexed smoothing loop `for i in range(a, a+k): step(deltas[i-1])`
is the fold of `rsiStep` over the delta sublist starting at index `a - 1`. -/
theorem foldl_loop_eq_drop (ds : List ℚ) :
    ∀ (k a : ℕ) (st : ℚ × ℚ), 1 ≤ a → a - 1 + k ≤ ds.length →
      (List.range' a k).foldl (fun s i => rsiStep s (ds.getD (i - 1) 0)) st =
        ((ds.drop (a - 1)).take k).foldl rsiStep st := by
  intro k
  induction k with
  | zero => intro a st _ _; simp
  | succ k ih =>
    intro a st ha h
    have hlt : a - 1 < ds.length := by omega
    rw [List.range'_succ, List.foldl_cons, List.drop_eq_getElem_cons hlt]
    have hstep : a - 1 + 1 = a := by omega
    rw [hstep, List.take_succ_cons, List.foldl_cons,
        List.getD_eq_getElem ds 0 hlt]
    have := ih (a + 1) (rsiStep st ds[a - 1]) (by omega) (by omega)
    simpa [Nat.add_sub_cancel] using this

/-- C4 counterexample closes: fourteen +1 deltas followed by one −1 delta.
The code's extra smoothing step (re-using the 14th delta) yields 4225/49
(≈ 86.22); the claim's seeding/loop yields 650/7 (≈ 92.86). -/
def closesC4 : List ℚ := [1, 2, 3, 4, 5, 6, 7, 8, 9, 10, 11, 12, 13, 14, 13]

/-- C4 counterexample: on `closesC4` (15 samples, so the claim applies)
`calculate_rsi` disagrees with the claim's described computation. -/
theorem C4_counterexample :
    calculate_rsi closesC4 = some (4225 / 49) ∧
    rsi_claimed closesC4 = some (650 / 7) ∧
    ((4225 : ℚ) / 49) ≠ ((650 : ℚ) / 7) := by
  refine ⟨by with_unfolding_all rfl, by with_unfolding_all rfl, by norm_num⟩

/-- C4 (amended): `calculate_rsi` seeds from the first 15 deltas (hence all 14
deltas when there are exactly 15 closes), still divided by 14, and smooths
over every delta from the 14th (index 13) onward — so the 14th and 15th
deltas are consumed by both the seed and the loop — returning the RSI at the
latest sample only. -/
theorem C4_rsi_as_implemented (closes : List ℚ) :
    calculate_rsi closes = rsi_amended closes := by
  unfold calculate_rsi rsi_amended
  by_cases h : closes.length < 15
  · rw [if_pos h, if_pos h]
  · rw [if_neg h, if_neg h]
    have hlen : (deltas closes).length = closes.length - 1 := deltas_length closes
    have hloop := foldl_loop_eq_drop (deltas closes) (closes.length - 14) 14
      (rsiSeed closes) (by omega) (by omega)
    have htake :
        (((deltas closes).drop (14 - 1)).take (closes.length - 14)) =
          (deltas closes).drop (14 - 1) := by
      apply List.take_of_length_le
      rw [List.length_drop, hlen]
      omega
    rw [htake] at hloop
    unfold rsiState
    rw [hloop]
    simp [rsiSeed]

/-- A list of nonpositive rationals has nonpositive sum. -/
theorem list_sum_nonpos (l : List ℚ) (h : ∀ x ∈ l, x ≤ 0) : l.sum ≤ 0 := by
  induction l with
  | nil => simp
  | cons x xs ih =>
    rw [List.sum_cons]
    have hx := h x (List.mem_cons_self x xs)
    have hxs := ih (fun y hy => h y (List.mem_cons_of_mem x hy))
    linarith

/-- The seeded average gain and loss are both nonnegative. -/
theorem rsiSeed_nonneg (closes : List ℚ) :
    0 ≤ (rsiSeed closes).1 ∧ 0 ≤ (rsiSeed closes).2 := by
  unfold rsiSeed
  constructor
  · apply div_nonneg _ (by norm_num)
    apply List.sum_nonneg
    intro x hx
    rw [List.mem_filter] at hx
    exact of_decide_eq_true hx.2
  · apply div_nonneg _ (by norm_num)
    rw [neg_nonneg]
    apply list_sum_nonpos
    intro x hx
    rw [List.mem_filter] at hx
    exact le_of_lt (of_decide_eq_true hx.2)

/-- One smoothing step keeps both running averages nonnegative. -/
theorem rsiStep_nonneg (s : ℚ × ℚ) (d : ℚ) (h1 : 0 ≤ s.1) (h2 : 0 ≤ s.2) :
    0 ≤ (rsiStep s d).1 ∧ 0 ≤ (rsiStep s d).2 := by
  unfold rsiStep
  by_cases hd : 0 < d
  · simp only [hd, if_true]
    constructor
    · apply div_nonneg _ (by norm_num)
      nlinarith
    · apply div_nonneg _ (by norm_num)
      nlinarith
  · simp only [hd, if_false]
    push_neg at hd
    constructor
    · apply div_nonneg _ (by norm_num)
      nlinarith
    · apply div_nonneg _ (by norm_num)
      nlinarith

/-- Folding smoothing steps over any indexed delta access preserves
nonnegativity of both running averages. -/
theorem foldl_rsiStep_nonneg (f : ℕ → ℚ) (l : List ℕ) (st : ℚ × ℚ)
    (h1 : 0 ≤ st.1) (h2 : 0 ≤ st.2) :
    0 ≤ (l.foldl (fun s i => rsiStep s (f i)) st).1 ∧
      0 ≤ (l.foldl (fun s i => rsiStep s (f i)) st).2 := by
  induction l generalizing st with
  | nil => exact ⟨h1, h2⟩
  | cons x xs ih =>
    rw [List.foldl_cons]
    have hs := rsiStep_nonneg st (f x) h1 h2
    exact ih _ hs.1 hs.2

/-- The RSI formula maps a nonnegative state into [0, 100], hitting 100
exactly when the running loss average is zero (the `RS = inf` branch). -/
theorem rsiOf_bounds (ud : ℚ × ℚ) (h1 : 0 ≤ ud.1) (h2 : 0 ≤ ud.2) :
    0 ≤ rsiOf ud ∧ rsiOf ud ≤ 100 ∧ (ud.2 = 0 → rsiOf ud = 100) := by
  unfold rsiOf
  by_cases hz : ud.2 = 0
  · rw [if_pos hz]
    norm_num
  · rw [if_neg hz]
    have hrs : 0 ≤ ud.1 / ud.2 := div_nonneg h1 h2
    have hle : 100 / (1 + ud.1 / ud.2) ≤ 100 := by
      apply div_le_self (by norm_num)
      linarith
    have hge : 0 ≤ 100 / (1 + ud.1 / ud.2) := by
      apply div_nonneg (by norm_num)
      linarith
    exact ⟨by linarith, by linarith, fun hc => absurd hc hz⟩

/-- C8: on any input of at least 15 closes the returned RSI equals
`rsiOf (rsiState closes)`, which lies in [0, 100]; when the smoothed average
loss is zero (the `RS = +inf` convention) the value is exactly 100. -/
theorem C8_rsi_bounded (closes : List ℚ) (h : 15 ≤ closes.length) :
    calculate_rsi closes = some (rsiOf (rsiState closes)) ∧
    0 ≤ rsiOf (rsiState closes) ∧ rsiOf (rsiState closes) ≤ 100 ∧
    ((rsiState closes).2 = 0 → rsiOf (rsiState closes) = 100) := by
  have hseed := rsiSeed_nonneg closes
  have hst : 0 ≤ (rsiState closes).1 ∧ 0 ≤ (rsiState closes).2 := by
    unfold rsiState
    exact foldl_rsiStep_nonneg _ _ _ hseed.1 hseed.2
  have hb := rsiOf_bounds _ hst.1 hst.2
  refine ⟨?_, hb.1, hb.2.1, hb.2.2⟩
  unfold calculate_rsi
  rw [if_neg (by omega)]

/-- C8 witness: fifteen constant closes give RSI exactly 100 (all-zero
deltas, so the loss average is 0 and the infinity branch applies). -/
theorem C8_rsi_bounded_witness :
    calculate_rsi (List.replicate 15 (1 : ℚ)) = some 100 ∧
    0 ≤ rsiOf (rsiState (List.replicate 15 (1 : ℚ))) ∧
    rsiOf (rsiState (List.replicate 15 (1 : ℚ))) ≤ 100 :=
  ⟨by with_unfolding_all rfl,
   (C8_rsi_bounded (List.replicate 15 (1 : ℚ)) (by simp)).2.1,
   (C8_rsi_bounded (List.replicate 15 (1 : ℚ)) (by simp)).2.2.1⟩

/-- With an unloaded instrument list no symbol resolves. -/
theorem resolvedTokens_nil (symbols : List String) (exchange : String) :
    resolvedTokens [] symbols exchange = [] := by
  unfold resolvedTokens resolveToken
  simp

/-- The token list `handle_subscribe` passes to the transport, as a set, is
exactly the resolved tokens minus the segment's current set. -/
theorem handle_subscribe_tokens (il : List Instr) (symbols : List String)
    (exchange : String) (st : SubState) :
    (handle_subscribe il symbols exchange st).2.toFinset =
      (resolvedTokens il symbols exchange).toFinset \ st (exchangeMap exchange) := by
  have hnew : (newTokens il symbols exchange st).toFinset =
      (resolvedTokens il symbols exchange).toFinset \ st (exchangeMap exchange) := by
    ext x
    simp [newTokens, List.mem_filter]
  unfold handle_subscribe
  by_cases hil : il.isEmpty
  · rw [List.isEmpty_iff] at hil
    subst hil
    simp [resolvedTokens_nil]
  · simp only [hil, Bool.false_eq_true, if_false]
    by_cases hto : (newTokens il symbols exchange st).isEmpty
    · rw [if_pos hto]
      rw [List.isEmpty_iff] at hto
      rw [← hnew, hto]
    · rw [if_neg hto]
      exact hnew

/-- The post-state of `handle_subscribe`: the request's segment gains exactly
the issued tokens, every other segment is untouched. -/
theorem handle_subscribe_state (il : List Instr) (symbols : List String)
    (exchange : String) (st : SubState) :
    (handle_subscribe il symbols exchange st).1 = fun s =>
      if s = exchangeMap exchange
      then st s ∪ (handle_subscribe il symbols exchange st).2.toFinset
      else st s := by
  unfold handle_subscribe
  by_cases hil : il.isEmpty
  · simp only [hil, if_true]
    funext s
    by_cases hs : s = exchangeMap exchange <;> simp [hs]
  · simp only [hil, Bool.false_eq_true, if_false]
    by_cases hto : (newTokens il symbols exchange st).isEmpty
    · rw [if_pos hto]
      rw [List.isEmpty_iff] at hto
      funext s
      by_cases hs : s = exchangeMap exchange <;> simp [hs, hto]
    · rw [if_neg hto]

/-- Repeating a subscribe request is a no-op: the state is unchanged and
nothing is passed to the transport. -/
theorem handle_subscribe_idem (il : List Instr) (symbols : List String)
    (exchange : String) (st : SubState) :
    handle_subscribe il symbols exchange (handle_subscribe il symbols exchange st).1 =
      ((handle_subscribe il symbols exchange st).1, []) := by
  by_cases hil : il.isEmpty
  · unfold handle_subscribe
    simp [hil]
  · by_cases hto : (newTokens il symbols exchange st).isEmpty
    · have hfst : (handle_subscribe il symbols exchange st).1 = st := by
        unfold handle_subscribe
        simp [hil, hto]
      rw [hfst]
      unfold handle_subscribe
      simp [hil, hto]
    · have hfst : (handle_subscribe il symbols exchange st).1 = fun s =>
          if s = exchangeMap exchange
          then st s ∪ (newTokens il symbols exchange st).toFinset
          else st s := by
        unfold handle_subscribe
        simp [hil, hto]
      have hempty : newTokens il symbols exchange
          (handle_subscribe il symbols exchange st).1 = [] := by
        rw [hfst]
        unfold newTokens
        rw [List.filter_eq_nil_iff]
        intro t ht
        simp only [decide_eq_true_eq, not_not, eq_self_iff_true, if_true]
        by_cases hst : t ∈ st (exchangeMap exchange)
        · exact Finset.mem_union_left _ hst
        · refine Finset.mem_union_right _ ?_
          rw [List.mem_toFinset, List.mem_filter]
          exact ⟨ht, by simp [hst]⟩
      generalize hst1 : (handle_subscribe il symbols exchange st).1 = st1 at hempty
      unfold handle_subscribe
      simp [hil, hempty]

/-- C9: `handle_subscribe` passes to the transport exactly the resolved
tokens not already subscribed on the request's segment, adds exactly those to
that segment's set leaving all other segments untouched, and repeating the
same request changes nothing and subscribes nothing. -/
theorem C9_subscribe_incremental_idempotent (il : List Instr)
    (symbols : List String) (exchange : String) (st : SubState) :
    (handle_subscribe il symbols exchange st).2.toFinset =
      (resolvedTokens il symbols exchange).toFinset \ st (exchangeMap exchange) ∧
    ((handle_subscribe il symbols exchange st).1 = fun s =>
      if s = exchangeMap exchange
      then st s ∪ (handle_subscribe il symbols exchange st).2.toFinset
      else st s) ∧
    handle_subscribe il symbols exchange
        (handle_subscribe il symbols exchange st).1 =
      ((handle_subscribe il symbols exchange st).1, []) :=
  ⟨handle_subscribe_tokens il symbols exchange st,
   handle_subscribe_state il symbols exchange st,
   handle_subscribe_idem il symbols exchange st⟩

/-! ## Claim C6: token-in-one-segment invariant

`handle_subscribe` checks membership only against the requested segment's
set, so the same token subscribed through two different exchanges lands in
two segments at once; the invariant holds exactly when the instrument list
never maps one token to two exchange types. -/

/-- The instrument list maps each token to a single exchange type. -/
def tokenSegConsistent (il : List Instr) : Prop :=
  ∀ i ∈ il, ∀ j ∈ il, i.token = j.token →
    exchangeMap i.exch_seg = exchangeMap j.exch_seg

instance (il : List Instr) : Decidable (tokenSegConsistent il) := by
  unfold tokenSegConsistent
  infer_instance

/-- Provenance invariant: every subscribed token entered through some
instrument record whose exchange maps to its segment. -/
def subsFromInstruments (il : List Instr) (st : SubState) : Prop :=
  ∀ s : ℕ, ∀ t ∈ st s, ∃ i ∈ il, i.token = t ∧ exchangeMap i.exch_seg = s

/-- A resolved token comes from an instrument record matching the request's
exchange. -/
theorem resolvedTokens_mem (il : List Instr) (symbols : List String)
    (exchange : String) {t : String}
    (ht : t ∈ resolvedTokens il symbols exchange) :
    ∃ i ∈ il, i.token = t ∧ i.exch_seg = exchange := by
  unfold resolvedTokens at ht
  rw [List.mem_filterMap] at ht
  obtain ⟨ts, -, hres⟩ := ht
  unfold resolveToken at hres
  rw [Option.map_eq_some'] at hres
  obtain ⟨i, hfind, htok⟩ := hres
  have hmem := List.mem_of_find?_eq_some hfind
  have hp := List.find?_some hfind
  rw [Bool.and_eq_true] at hp
  exact ⟨i, hmem, htok, eq_of_beq hp.2⟩

/-- Both request handlers preserve the provenance invariant. -/
theorem subsFromInstruments_apply (il : List Instr) (st : SubState) (r : Req)
    (h : subsFromInstruments il st) :
    subsFromInstruments il (applyReq il st r) := by
  cases r with
  | sub symbols exchange =>
    intro s t htmem
    rw [show (applyReq il st (Req.sub symbols exchange)) =
        (handle_subscribe il symbols exchange st).1 from rfl,
      handle_subscribe_state il symbols exchange st] at htmem
    have htmem : t ∈ (if s = exchangeMap exchange
        then st s ∪ (handle_subscribe il symbols exchange st).2.toFinset
        else st s) := htmem
    by_cases hs : s = exchangeMap exchange
    · rw [if_pos hs] at htmem
      rcases Finset.mem_union.mp htmem with hold | hnew
      · exact h s t hold
      · rw [handle_subscribe_tokens, Finset.mem_sdiff, List.mem_toFinset] at hnew
        obtain ⟨i, hi, htok, hexch⟩ := resolvedTokens_mem il symbols exchange hnew.1
        exact ⟨i, hi, htok, by rw [hexch, hs]⟩
    · rw [if_neg hs] at htmem
      exact h s t htmem
  | unsub symbols exchange =>
    intro s t htmem
    have hsub : t ∈ st s := by
      unfold applyReq handle_unsubscribe at htmem
      by_cases hil : il.isEmpty
      · simpa [hil] using htmem
      · simp only [hil, Bool.false_eq_true, if_false] at htmem
        by_cases hto : (removableTokens il symbols exchange st).isEmpty
        · simpa [hto] using htmem
        · simp only [hto, Bool.false_eq_true, if_false] at htmem
          by_cases hs : s = exchangeMap exchange
          · rw [if_pos hs] at htmem
            exact (Finset.mem_sdiff.mp htmem).1
          · rwa [if_neg hs] at htmem
    exact h s t hsub

/-- The provenance invariant holds in every reachable subscription state. -/
theorem subsFromInstruments_run (il : List Instr) (reqs : List Req) :
    subsFromInstruments il (runReqs il reqs) := by
  unfold runReqs
  have hbase : subsFromInstruments il emptySubs := by
    intro s t ht
    simp [emptySubs] at ht
  revert hbase
  generalize emptySubs = st0
  induction reqs generalizing st0 with
  | nil => exact fun h => h
  | cons r rs ih =>
    intro h
    rw [List.foldl_cons]
    exact ih _ (subsFromInstruments_apply il st0 r h)

/-- C6: in every state reachable by subscribe/unsubscribe requests from the
empty state, a token lies in at most one segment's set — provided the
instrument list maps each token to a single exchange type. -/
theorem C6_token_in_at_most_one_segment (il : List Instr) (reqs : List Req)
    (hc : tokenSegConsistent il) (t : String) (s1 s2 : ℕ)
    (h1 : t ∈ runReqs il reqs s1) (h2 : t ∈ runReqs il reqs s2) : s1 = s2 := by
  obtain ⟨i, hi, hti, hsi⟩ := subsFromInstruments_run il reqs s1 t h1
  obtain ⟨j, hj, htj, hsj⟩ := subsFromInstruments_run il reqs s2 t h2
  rw [← hsi, ← hsj]
  exact hc i hi j hj (by rw [hti, htj])

/-- Instrument master carrying the same token number on two exchanges. -/
def ilC6 : List Instr :=
  [{ symbol := "A", exch_seg := "NSE", token := "77" },
   { symbol := "B", exch_seg := "NFO", token := "77" }]

/-- Subscribe the two symbols through their two exchanges. -/
def reqsC6 : List Req := [Req.sub ["A"] "NSE", Req.sub ["B"] "NFO"]

/-- C6 counterexample: with the instrument master above, token "77" ends up
in segment 1 (NSE) and segment 2 (NFO) simultaneously — `handle_subscribe`
only checks the requested segment's set, so the claimed invariant fails
without the consistency proviso. -/
theorem C6_counterexample :
    "77" ∈ runReqs ilC6 reqsC6 1 ∧ "77" ∈ runReqs ilC6 reqsC6 2 ∧ (1 : ℕ) ≠ 2 := by
  refine ⟨by decide, by decide, by decide⟩

/-- Single-exchange instrument master used to witness C6. -/
def ilC6w : List Instr := [{ symbol := "A", exch_seg := "NSE", token := "77" }]

/-- One subscribe request against `ilC6w`. -/
def reqsC6w : List Req := [Req.sub ["A"] "NSE"]

/-- C6 witness: a consistent instrument list with a reachable state
containing token "77", on which the invariant theorem applies. -/
theorem C6_token_in_at_most_one_segment_witness :
    tokenSegConsistent ilC6w ∧ "77" ∈ runReqs ilC6w reqsC6w 1 ∧ (1 : ℕ) = 1 :=
  ⟨by decide, by decide,
   C6_token_in_at_most_one_segment ilC6w reqsC6w (by decide) "77" 1 1
     (by decide) (by decide)⟩
